import Mathlib

/-!
Verification of the Use-Open-AutoGLM-IoT core: the voice poller
(`mi/voice.py`), the broadcast hub and action dispatcher (`app.py`),
and the schedule module (`scheduler.py`), shallowly embedded in Lean.
-/

set_option maxRecDepth 4000

namespace IoT

/-! ## Voice poller (`mi/voice.py`) -/

/-- A remote conversation record as returned by `MiNA.get_conversations`:
the fields `time`, `query`, `requestId` read by `voice.py`. -/
structure Record where
  time : Nat
  query : String
  requestId : String
deriving DecidableEq, Repr

/-- `VoiceMessage` from `mi/voice.py`. -/
structure VoiceMessage where
  text : String
  timestamp : Nat
  request_id : String
deriving DecidableEq, Repr

/-- Building the `VoiceMessage` handed to the callback from a record
(`voice.py` lines 165–169). -/
def recordToMessage (r : Record) : VoiceMessage :=
  { text := r.query, timestamp := r.time, request_id := r.requestId }

/-- `VoiceReceiver._fetch_messages` (`voice.py` lines 132–181), given the
current `last_timestamp` watermark and the fetched page of records, in the
order the remote returned them.  Returns the new watermark and the list of
messages passed to the callback, in callback order.  A record is skipped
when `only_new` is set and its time is `≤ last_timestamp`; otherwise the
watermark is raised to the record's time when larger, and the callback is
invoked (callback exceptions are caught, so every surviving record is
delivered). -/
def fetch_messages (only_new : Bool) : Nat → List Record → Nat × List VoiceMessage
  | last_timestamp, [] => (last_timestamp, [])
  | last_timestamp, r :: rs =>
    if only_new && r.time ≤ last_timestamp then
      fetch_messages only_new last_timestamp rs
    else
      let wm := if last_timestamp < r.time then r.time else last_timestamp
      let rest := fetch_messages only_new wm rs
      (rest.1, recordToMessage r :: rest.2)

/-- Spec-side characterisation of which records survive one poll cycle:
a record survives exactly when its time strictly exceeds the watermark
*as updated by the earlier records of the same page*. -/
def survivors : Nat → List Record → List Record
  | _, [] => []
  | wm, r :: rs =>
    if wm < r.time then r :: survivors r.time rs else survivors wm rs

/-- `VoiceReceiver._init_last_timestamp` (`voice.py` lines 123–130): the
watermark becomes the time of the first record of a 1-record fetch; on an
empty result the previous value (`0` for a fresh receiver) is kept. -/
def init_last_timestamp (old : Nat) (initPage : List Record) : Nat :=
  match initPage with
  | [] => old
  | r :: _ => r.time

/-- The poll loop (`voice.py` lines 67–71): one `_fetch_messages` call per
cycle, threading the watermark; returns the final watermark and the
concatenation of all delivered messages in delivery order. -/
def poll_loop (only_new : Bool) : Nat → List (List Record) → Nat × List VoiceMessage
  | wm, [] => (wm, [])
  | wm, page :: pages =>
    let step := fetch_messages only_new wm page
    let rest := poll_loop only_new step.1 pages
    (rest.1, step.2 ++ rest.2)

/-- `VoiceReceiver.start` followed by the poll loop (`voice.py` lines
56–74): the watermark is initialised from a synchronous 1-record fetch
before the first page is processed. -/
def run_receiver (initPage : List Record) (pages : List (List Record)) :
    Nat × List VoiceMessage :=
  poll_loop true (init_last_timestamp 0 initPage) pages

/-! ## Receiver lifecycle (`mi/voice.py` / `app.py`) -/

/-- The mutable state of a `VoiceReceiver` (`voice.py` `__init__`), with
`active_loops` counting the spawned polling threads that have not been
stopped. -/
structure ReceiverState where
  last_timestamp : Nat
  is_running : Bool
  active_loops : Nat
deriving DecidableEq, Repr

/-- `VoiceReceiver.__init__` (`voice.py` lines 29–40). -/
def receiver_init : ReceiverState :=
  { last_timestamp := 0, is_running := false, active_loops := 0 }

/-- Outcome reported by `VoiceReceiver.start`. -/
inductive StartReport where
  | started
  | alreadyRunning
deriving DecidableEq, Repr

/-- Outcome reported by `VoiceReceiver.stop`. -/
inductive StopReport where
  | stopped
  | notRunning
deriving DecidableEq, Repr

/-- `VoiceReceiver.start` (`voice.py` lines 42–75) as a state transition:
when already running it returns at once having changed nothing; otherwise
it sets the running flag, initialises the watermark from a synchronous
1-record fetch, and spawns one polling thread. -/
def receiver_start (s : ReceiverState) (initPage : List Record) :
    ReceiverState × StartReport :=
  if s.is_running then (s, .alreadyRunning)
  else
    ({ last_timestamp := init_last_timestamp s.last_timestamp initPage,
       is_running := true,
       active_loops := s.active_loops + 1 }, .started)

/-- `VoiceReceiver.stop` (`voice.py` lines 77–88): a no-op when not
running; otherwise it clears the running flag, signals the stop event and
joins the polling thread. -/
def receiver_stop (s : ReceiverState) : ReceiverState × StopReport :=
  if s.is_running then
    ({ s with is_running := false, active_loops := s.active_loops - 1 },
     .stopped)
  else (s, .notRunning)

/-! ## Broadcast hub (`app.py` lines 54–79, 958–996) -/

/-- A log event as published through `add_log_to_queue`; the fan-out logic
never inspects the payload, so only the common fields are modelled. -/
structure LogEvent where
  type : String
  message : String
  timestamp : String
deriving DecidableEq, Repr

/-- One SSE listener of `stream_logs`: its private delivery queue
(`inbox`) plus whether a `put` on it succeeds (`alive`); in the source a
failing `put` raises and the listener is discarded. -/
structure Listener where
  lid : Nat
  alive : Bool
  inbox : List LogEvent
deriving DecidableEq, Repr

/-- `listener.put(log_data)` (`app.py` line 73): `some` of the updated
listener on success, `none` when the delivery raises. -/
def listener_put (l : Listener) (e : LogEvent) : Option Listener :=
  if l.alive then some { l with inbox := l.inbox ++ [e] } else none

/-- The hub state: the bounded history `log_queue` and the set of SSE
listeners `log_listeners` (`app.py` lines 55–57). -/
structure Hub where
  log_queue : List LogEvent
  log_listeners : List Listener
deriving DecidableEq, Repr

/-- The initial hub: empty history, no listeners. -/
def hub_empty : Hub := { log_queue := [], log_listeners := [] }

/-- `add_log_to_queue` (`app.py` lines 59–79): append the event to the
history, popping the oldest entry when the length exceeds 100; then try a
`put` to every listener and discard the listeners whose `put` raised. -/
def add_log_to_queue (h : Hub) (e : LogEvent) : Hub :=
  { log_queue :=
      (let q2 := h.log_queue ++ [e]
       if 100 < q2.length then q2.drop 1 else q2),
    log_listeners := h.log_listeners.filterMap (fun l => listener_put l e) }

/-- A sequence of `add_log_to_queue` calls. -/
def publish_all (h : Hub) (es : List LogEvent) : Hub :=
  es.foldl add_log_to_queue h

/-- The replay slice sent by `stream_logs` (`app.py` lines 977–980):
`log_queue[-20:]` when the queue holds more than 20 entries, else the whole
queue. -/
def recent_logs (q : List LogEvent) : List LogEvent :=
  if 20 < q.length then q.drop (q.length - 20) else q

/-- The fresh listener queue created at the top of `stream_logs.generate`
(`app.py` lines 964–970): empty, and its `put` succeeds. -/
def session_sub : Listener := { lid := 0, alive := true, inbox := [] }

/-- The hub state when the subscriber of one `stream_logs` session
registers: the events `before` have been published into an empty hub. -/
def session_hub1 (before : List LogEvent) : Hub :=
  publish_all hub_empty before

/-- The hub state right after the subscriber registered. -/
def session_hub2 (before : List LogEvent) : Hub :=
  { session_hub1 before with
    log_listeners := (session_hub1 before).log_listeners ++ [session_sub] }

/-- One subscriber session of `stream_logs` (`app.py` lines 958–996):
starting from an empty hub, `before` is published, then a fresh listener
queue is registered and the replay snapshot taken, then `after` is
published.  The generator yields a fixed `connected` notice, then the
replay, then the events read from the listener queue (heartbeat frames,
sent only on empty 1-second waits, are not events of the hub).  Returns
the replay slice and the live events the subscriber observes. -/
def stream_logs_session (before after : List LogEvent) :
    List LogEvent × List LogEvent :=
  (recent_logs (session_hub1 before).log_queue,
   (((publish_all (session_hub2 before) after).log_listeners.find?
       (fun l => l.lid == session_sub.lid)).map Listener.inbox).getD [])

/-! ## Action dispatcher (`app.py` lines 360–476, 546–654) -/

/-- An action of a device record (`datas/devices.json` shape read by
`app.py`). -/
structure DeviceAction where
  id : String
  name : String
  command : String
deriving DecidableEq, Repr

/-- A device record. -/
structure Device where
  id : String
  name : String
  app : String
  actions : List DeviceAction
deriving DecidableEq, Repr

/-- `get_device_by_id` (`device_manager.py` lines 37–43) applied to the
loaded device list: the first record with a matching id. -/
def get_device_by_id (devices : List Device) (device_id : String) :
    Option Device :=
  devices.find? (fun d => d.id == device_id)

/-- Resolution of the command text and action name for a requested action
id (`app.py` lines 569–580 and 372–383): the first action with a matching
id wins; its `{app}` placeholder is substituted with the device's app label
when both the template and the label are non-empty; on no match the
defaults (empty command text, name `默认操作`) survive. -/
def resolve_action (device : Device) (action_id : String) : String × String :=
  match device.actions.find? (fun a => a.id == action_id) with
  | some action =>
      (if action.command != "" && device.app != "" then
         action.command.replace "\x7bapp\x7d" device.app
       else action.command,
       action.name)
  | none => ("", "默认操作")

/-- The configuration read from the environment by `app.py`: the Python
interpreter and the ZHIPU settings used to build the spawned command. -/
structure Env where
  python : String
  base_url : String
  model : String
  api_key : String
deriving DecidableEq, Repr

/-- The argument vector built for the spawned process (`app.py` lines
594–602 and 395–403). -/
def build_cmd (env : Env) (command_text : String) : List String :=
  [env.python,
   "/Users/linkaipeng/Documents/work/ai/demo/Open-AutoGLM/Open-AutoGLM/main.py",
   "--base-url", env.base_url,
   "--model", env.model,
   "--apikey", env.api_key,
   command_text]

/-- One SSE frame yielded by the sync-stream dispatch
(`execute_device.generate`). -/
inductive SSEEvent where
  | start (message command final_command : String)
  | output (line : String)
  | endEv (success : Bool) (message : String) (returncode : Int)
  | error (message : String)
deriving DecidableEq, Repr

/-- The sync-stream dispatch generator `execute_device.generate`
(`app.py` lines 549–652) for a spawned process that runs to completion
printing the lines `proc.1` and exiting with code `proc.2`: the list of
SSE events yielded, in yield order.  An unknown device id or a missing
(falsy) `action_id` yields a single error frame and returns; a missing
`ZHIPU_API_KEY` makes the generator return without yielding; otherwise the
command is resolved, the start frame is yielded, the process is spawned,
one output frame is yielded per line, and a single `end` frame closes the
stream with `success` exactly when the exit code is 0. -/
def execute_device_stream (devices : List Device) (env : Env)
    (device_id : String) (action_id : Option String)
    (proc : List String × Int) : List SSEEvent :=
  match get_device_by_id devices device_id with
  | none => [.error ("设备 ID " ++ device_id ++ " 不存在")]
  | some device =>
    match action_id with
    | none => [.error "未指定操作"]
    | some aid =>
      if aid == "" || device.actions.isEmpty then [.error "未指定操作"]
      else
        let resolved := resolve_action device aid
        if env.api_key == "" then []
        else
          SSEEvent.start ("开始执行: " ++ device.name ++ " - " ++ resolved.2)
              (String.intercalate " " (build_cmd env resolved.1)) resolved.1
            :: (proc.1.map SSEEvent.output
              ++ [if proc.2 == 0 then
                    SSEEvent.endEv true "命令执行完成" proc.2
                  else SSEEvent.endEv false "命令执行失败" proc.2])

/-- Result of `execute_device_action_internal`. -/
inductive InternalResult where
  | error (message : String)
  | ok (message device action : String)
deriving DecidableEq, Repr

/-- `execute_device_action_internal` (`app.py` lines 360–476) up to the
acknowledgement it returns: unknown device and empty resolved command text
are rejected before any process is spawned; a missing `ZHIPU_API_KEY` is
rejected next; otherwise the process is spawned and the acknowledgement
returned. -/
def execute_device_action_internal (devices : List Device) (env : Env)
    (device_id : String) (action_id : Option String) : InternalResult :=
  match get_device_by_id devices device_id with
  | none => .error ("设备 ID " ++ device_id ++ " 不存在")
  | some device =>
    let resolved :=
      match action_id with
      | some aid =>
          if aid != "" && !device.actions.isEmpty then resolve_action device aid
          else ("", "默认操作")
      | none => ("", "默认操作")
    if resolved.1 == "" then .error "未找到对应的操作"
    else if env.api_key == "" then .error "未配置 ZHIPU_API_KEY"
    else .ok ("已触发: " ++ device.name ++ " - " ++ resolved.2) device.name resolved.2

/-! ## Schedule module (`scheduler.py`) -/

/-- A stored schedule rule (the JSON shape written by `create_schedule`);
`repeat_kind` models the JSON field `repeat`. -/
structure ScheduleRule where
  id : String
  name : String
  device_id : String
  action_id : String
  time : String
  repeat_kind : String
  weekdays : List Nat
  enabled : Bool
deriving DecidableEq, Repr

/-- The request body consumed by `create_schedule`/`update_schedule`
(`data.get(...)` with their defaults). -/
structure ScheduleRequest where
  name : String
  device_id : String
  action_id : String
  time : String
  repeat_kind : Option String
  weekdays : Option (List Nat)
  enabled : Option Bool
deriving DecidableEq, Repr

/-- The rule built from a request (`scheduler.py` lines 255–265 and
300–309): `repeat` defaults to `"once"`, `weekdays` to `[]`, `enabled` to
`true`; no field is validated. -/
def new_rule_of (rid : String) (d : ScheduleRequest) : ScheduleRule :=
  { id := rid, name := d.name, device_id := d.device_id,
    action_id := d.action_id, time := d.time,
    repeat_kind := d.repeat_kind.getD "once",
    weekdays := d.weekdays.getD [],
    enabled := d.enabled.getD true }

/-- `create_schedule` (`scheduler.py` lines 247–287) with the save
succeeding: the new rule is appended unconditionally and success is
reported. -/
def create_schedule (schedules : List ScheduleRule) (rid : String)
    (d : ScheduleRequest) : List ScheduleRule × Bool :=
  (schedules ++ [new_rule_of rid d], true)

/-- The in-place update of the first rule with a matching id performed by
`update_schedule` (`scheduler.py` lines 296–311). -/
def update_first (sid : String) (d : ScheduleRequest) :
    List ScheduleRule → Option (List ScheduleRule)
  | [] => none
  | s :: ss =>
    if s.id == sid then some (new_rule_of sid d :: ss)
    else (update_first sid d ss).map (fun ss2 => s :: ss2)

/-- `update_schedule` (`scheduler.py` lines 289–336) with the save
succeeding: the first rule with a matching id has its fields overwritten
with the (unvalidated) request values; an unknown id reports failure and
changes nothing. -/
def update_schedule (schedules : List ScheduleRule) (sid : String)
    (d : ScheduleRequest) : List ScheduleRule × Bool :=
  match update_first sid d schedules with
  | some ss => (ss, true)
  | none => (schedules, false)

/-- A job registered with the `schedule` library: `daily t sid` for
`schedule.every().day.at(t)`, `weekly d t sid` for
`getattr(schedule.every(), d).at(t)`, both tagged with the rule id. -/
inductive Job where
  | daily (time sid : String)
  | weekly (day time sid : String)
deriving DecidableEq, Repr

/-- The `day_map` dict of `setup_schedule_job` (`scheduler.py` lines
129–137). -/
def day_map (n : Nat) : Option String :=
  match n with
  | 0 => some "sunday"
  | 1 => some "monday"
  | 2 => some "tuesday"
  | 3 => some "wednesday"
  | 4 => some "thursday"
  | 5 => some "friday"
  | 6 => some "saturday"
  | _ => none

/-- `setup_schedule_job` (`scheduler.py` lines 92–143): the jobs registered
for one rule.  Disabled rules register nothing; the `weekly` branch is
guarded by `and weekdays`, so a weekly rule with an empty weekday set falls
through every branch and registers nothing. -/
def setup_schedule_job (sd : ScheduleRule) : List Job :=
  if !sd.enabled then []
  else if sd.repeat_kind == "once" then [.daily sd.time sd.id]
  else if sd.repeat_kind == "daily" then [.daily sd.time sd.id]
  else if sd.repeat_kind == "weekdays" then
    ["monday", "tuesday", "wednesday", "thursday", "friday"].map
      (fun d => Job.weekly d sd.time sd.id)
  else if sd.repeat_kind == "weekends" then
    ["saturday", "sunday"].map (fun d => Job.weekly d sd.time sd.id)
  else if sd.repeat_kind == "weekly" && !sd.weekdays.isEmpty then
    sd.weekdays.filterMap (fun w => (day_map w).map
      (fun d => Job.weekly d sd.time sd.id))
  else []

/-- Whether a registered job runs on a tick at the given local day name and
"HH:MM" time (the semantics of the `schedule` library jobs used). -/
def job_fires (day time : String) : Job → Bool
  | .daily t _ => time == t
  | .weekly d t _ => day == d && time == t

/-- Whether a rule fires on a tick: some job registered for it runs. -/
def rule_fires (sd : ScheduleRule) (day time : String) : Bool :=
  (setup_schedule_job sd).any (job_fires day time)

/-! ## Voice poller lemmas -/

/-- One poll cycle computes the running maximum of the page's timestamps as
the new watermark and delivers exactly the survivors, in page order. -/
theorem fetch_messages_eq (wm : Nat) (rs : List Record) :
    fetch_messages true wm rs =
      (rs.foldl (fun w r => max w r.time) wm,
       (survivors wm rs).map recordToMessage) := by
  induction rs generalizing wm with
  | nil => rfl
  | cons r rs ih =>
    by_cases h : r.time ≤ wm
    · have hlt : ¬ wm < r.time := not_lt.mpr h
      simp [fetch_messages, survivors, h, hlt, ih, max_eq_left h]
    · have hlt : wm < r.time := not_le.mp h
      simp [fetch_messages, survivors, h, hlt, ih,
        max_eq_right (le_of_lt hlt)]

/-- The survivors of a page are a sublist of the page. -/
theorem survivors_sublist (wm : Nat) (rs : List Record) :
    (survivors wm rs).Sublist rs := by
  induction rs generalizing wm with
  | nil => simp [survivors]
  | cons r rs ih =>
    by_cases h : wm < r.time
    · simpa [survivors, h] using (ih r.time).cons₂ r
    · simpa [survivors, h] using (ih wm).cons r

/-- Every survivor's timestamp strictly exceeds the cycle's starting
watermark. -/
theorem survivors_mem_gt (wm : Nat) (rs : List Record) (r : Record)
    (hr : r ∈ survivors wm rs) : wm < r.time := by
  induction rs generalizing wm with
  | nil => simp [survivors] at hr
  | cons q rs ih =>
    by_cases h : wm < q.time
    · simp [survivors, h] at hr
      rcases hr with rfl | hr
      · exact h
      · exact lt_trans h (ih q.time hr)
    · simp [survivors, h] at hr
      exact ih wm hr

/-- The watermark never decreases across one poll cycle. -/
theorem fetch_messages_wm_le (wm : Nat) (rs : List Record) :
    wm ≤ (fetch_messages true wm rs).1 := by
  rw [fetch_messages_eq]
  induction rs generalizing wm with
  | nil => simp
  | cons r rs ih => exact le_trans (le_max_left wm r.time) (ih (max wm r.time))

/-- Every message delivered in one poll cycle has a timestamp strictly
above the cycle's starting watermark. -/
theorem fetch_messages_delivered_gt (wm : Nat) (rs : List Record)
    (m : VoiceMessage) (hm : m ∈ (fetch_messages true wm rs).2) :
    wm < m.timestamp := by
  rw [fetch_messages_eq] at hm
  simp only [List.mem_map] at hm
  obtain ⟨r, hr, hrm⟩ := hm
  have := survivors_mem_gt wm rs r hr
  rw [← hrm]
  exact this

/-- Every message delivered by the poll loop has a timestamp strictly above
the loop's starting watermark. -/
theorem poll_loop_delivered_gt (pages : List (List Record)) (wm : Nat)
    (m : VoiceMessage) (hm : m ∈ (poll_loop true wm pages).2) :
    wm < m.timestamp := by
  induction pages generalizing wm with
  | nil => simp [poll_loop] at hm
  | cons page pages ih =>
    simp only [poll_loop, List.mem_append] at hm
    rcases hm with hm | hm
    · exact fetch_messages_delivered_gt wm page m hm
    · exact lt_of_le_of_lt (fetch_messages_wm_le wm page) (ih _ hm)

/-! ## Claim theorems: voice poller -/

/-- C1, counterexample: with watermark 0 and fetched page
`[300, 200, 100]` (timestamps in the remote's newest-first order), the
records with timestamps 200 and 100 are strictly newer than the watermark
held at the start of the cycle, yet only the message with timestamp 300 is
delivered — because the watermark is advanced *while* iterating the page. -/
theorem voice_page_newer_record_dropped :
    (0 : Nat) < 200 ∧
    (⟨200, "b", "r2"⟩ : Record) ∈
      ([⟨300, "a", "r1"⟩, ⟨200, "b", "r2"⟩, ⟨100, "c", "r3"⟩] : List Record) ∧
    (fetch_messages true 0
        [⟨300, "a", "r1"⟩, ⟨200, "b", "r2"⟩, ⟨100, "c", "r3"⟩]).2.map
        VoiceMessage.timestamp = [300] := by
  decide

/-- C1, amended: in every poll cycle, a fetched record is delivered exactly
when its timestamp strictly exceeds the running watermark — the maximum of
the watermark held at the start of the cycle and the timestamps of the
records appearing earlier in the fetched page — records are delivered in
page order (a sublist of the page, not sorted oldest-to-newest), every
delivered record is strictly newer than the start-of-cycle watermark, and
the watermark is advanced to the maximum of its old value and all
timestamps in the page. -/
theorem voice_poll_cycle_characterisation (wm : Nat) (rs : List Record) :
    (fetch_messages true wm rs).1 =
      rs.foldl (fun w r => max w r.time) wm ∧
    (fetch_messages true wm rs).2 = (survivors wm rs).map recordToMessage ∧
    (survivors wm rs).Sublist rs ∧
    (∀ r ∈ survivors wm rs, wm < r.time) := by
  have h := fetch_messages_eq wm rs
  refine ⟨?_, ?_, survivors_sublist wm rs,
    fun r hr => survivors_mem_gt wm rs r hr⟩
  · rw [h]
  · rw [h]

/-- C5: starting from watermark 0, after the page `[100, 300, 200]` the
watermark is 300, and from the following page `[300, 250, 400]` only the
message with timestamp 400 is delivered — no record with timestamp ≤ 300
reaches the callback. -/
theorem watermark_two_page_scenario :
    (fetch_messages true 0
      [⟨100, "a", "r1"⟩, ⟨300, "b", "r2"⟩, ⟨200, "c", "r3"⟩]).1 = 300 ∧
    (fetch_messages true 300
      [⟨300, "d", "r4"⟩, ⟨250, "e", "r5"⟩, ⟨400, "f", "r6"⟩]).2.map
      VoiceMessage.timestamp = [400] ∧
    (∀ m ∈ (fetch_messages true 300
        [⟨300, "d", "r4"⟩, ⟨250, "e", "r5"⟩, ⟨400, "f", "r6"⟩]).2,
      300 < m.timestamp) := by
  decide

/-- C4: the receiver initialises its watermark from a synchronous 1-record
fetch before the loop's first page, and thereafter no message whose
timestamp is ≤ that baseline is ever delivered to the callback, over any
sequence of poll cycles. -/
theorem receiver_baseline_never_replayed (initPage : List Record)
    (pages : List (List Record)) (m : VoiceMessage)
    (hm : m ∈ (run_receiver initPage pages).2) :
    init_last_timestamp 0 initPage < m.timestamp :=
  poll_loop_delivered_gt pages (init_last_timestamp 0 initPage) m hm

/-- Witness for C4 at a concrete run: baseline record at 100, one later
page containing a record at 200. -/
theorem receiver_baseline_never_replayed_witness :
    init_last_timestamp 0 [⟨100, "q0", "r0"⟩] <
      (VoiceMessage.mk "q1" 200 "r1").timestamp :=
  receiver_baseline_never_replayed [⟨100, "q0", "r0"⟩]
    [[⟨200, "q1", "r1"⟩]] ⟨"q1", 200, "r1"⟩ (by decide)

/-- C8: starting an already-running receiver changes nothing and reports
"already running"; stopping a non-running receiver changes nothing and
reports "not running"; starting twice from a fresh receiver yields one
`started`, exactly one `alreadyRunning` rejection, and a single active
polling loop. -/
theorem receiver_single_instance (s : ReceiverState) (p q : List Record) :
    receiver_start { s with is_running := true } p =
      ({ s with is_running := true }, StartReport.alreadyRunning) ∧
    receiver_stop { s with is_running := false } =
      ({ s with is_running := false }, StopReport.notRunning) ∧
    (receiver_start receiver_init p).2 = StartReport.started ∧
    (receiver_start (receiver_start receiver_init p).1 q).2 =
      StartReport.alreadyRunning ∧
    (receiver_start (receiver_start receiver_init p).1 q).1 =
      (receiver_start receiver_init p).1 ∧
    (receiver_start (receiver_start receiver_init p).1 q).1.active_loops
      = 1 := by
  refine ⟨?_, ?_, ?_, ?_, ?_, ?_⟩ <;>
    simp [receiver_start, receiver_stop, receiver_init]

/-! ## Broadcast hub lemmas -/

/-- `publish_all` unfolds one event at a time. -/
theorem publish_all_cons (h : Hub) (e : LogEvent) (es : List LogEvent) :
    publish_all h (e :: es) = publish_all (add_log_to_queue h e) es := rfl

/-- The history after publishing `es` into an empty hub is the suffix of
`es` of length at most 100. -/
theorem publish_all_queue (es : List LogEvent) :
    (publish_all hub_empty es).log_queue = es.drop (es.length - 100) := by
  induction es using List.reverseRecOn with
  | nil => rfl
  | append_singleton es e ih =>
    have hstep : publish_all hub_empty (es ++ [e]) =
        add_log_to_queue (publish_all hub_empty es) e := by
      simp [publish_all, List.foldl_append]
    rw [hstep]
    simp only [add_log_to_queue]
    rw [ih]
    have hA : (es.drop (es.length - 100) ++ [e]).length =
        (es.length - (es.length - 100)) + 1 := by simp
    have hB : (es ++ [e]).length = es.length + 1 := by simp
    by_cases hlen : 100 ≤ es.length
    · have hcond : 100 < (es.drop (es.length - 100) ++ [e]).length := by
        rw [hA]; omega
      rw [if_pos hcond]
      rw [List.drop_append_of_le_length
        (show 1 ≤ (es.drop (es.length - 100)).length by
          rw [List.length_drop]; omega)]
      rw [List.drop_drop]
      rw [hB]
      rw [List.drop_append_of_le_length
        (show es.length + 1 - 100 ≤ es.length by omega)]
      have harith : es.length - 100 + 1 = es.length + 1 - 100 := by omega
      rw [harith]
    · have hcond : ¬ 100 < (es.drop (es.length - 100) ++ [e]).length := by
        rw [hA]; omega
      rw [if_neg hcond]
      have h0 : es.length - 100 = 0 := by omega
      have h1 : (es ++ [e]).length - 100 = 0 := by rw [hB]; omega
      rw [h0, h1, List.drop_zero, List.drop_zero]

/-- Delivery to the listener set: every listener whose `put` succeeds is
kept with the event appended; every listener whose `put` raises is
discarded. -/
theorem filterMap_put (ls : List Listener) (e : LogEvent) :
    ls.filterMap (fun l => listener_put l e) =
      (ls.filter (fun l => l.alive)).map
        (fun l => { l with inbox := l.inbox ++ [e] }) := by
  induction ls with
  | nil => rfl
  | cons l ls ih =>
    rw [List.filterMap_cons, ih, List.filter_cons]
    cases hl : l.alive with
    | true => simp [listener_put, hl]
    | false => simp [listener_put, hl]

/-- The listener set after one publish. -/
theorem add_log_listeners (h : Hub) (e : LogEvent) :
    (add_log_to_queue h e).log_listeners =
      (h.log_listeners.filter (fun l => l.alive)).map
        (fun l => { l with inbox := l.inbox ++ [e] }) :=
  filterMap_put h.log_listeners e

/-- After at least one publish, every registered listener is alive. -/
theorem publish_add_alive (h : Hub) (e : LogEvent) (es : List LogEvent)
    (l : Listener)
    (hl : l ∈ (publish_all (add_log_to_queue h e) es).log_listeners) :
    l.alive = true := by
  induction es generalizing h e with
  | nil =>
    simp only [publish_all, List.foldl_nil] at hl
    rw [add_log_listeners] at hl
    simp only [List.mem_map, List.mem_filter] at hl
    obtain ⟨x, ⟨_, hx⟩, hxl⟩ := hl
    rw [← hxl]
    exact hx
  | cons e' es ih =>
    rw [publish_all_cons] at hl
    exact ih (add_log_to_queue h e) e' hl

/-- Publishing into a hub with no listeners registers none. -/
theorem publish_all_no_listeners (h : Hub) (es : List LogEvent)
    (hl : h.log_listeners = []) :
    (publish_all h es).log_listeners = [] := by
  induction es generalizing h with
  | nil => exact hl
  | cons e es ih =>
    rw [publish_all_cons]
    exact ih _ (by rw [add_log_listeners, hl]; rfl)

/-- Publishing `es` into a hub whose only listener is alive delivers every
event of `es` to that listener, in order, with no loss. -/
theorem publish_all_single_listener (h : Hub) (sub : Listener)
    (hl : h.log_listeners = [sub]) (hsub : sub.alive = true)
    (es : List LogEvent) :
    (publish_all h es).log_listeners =
      [{ sub with inbox := sub.inbox ++ es }] := by
  induction es generalizing h sub with
  | nil => simpa [publish_all] using hl
  | cons e es ih =>
    rw [publish_all_cons]
    have hstep : (add_log_to_queue h e).log_listeners =
        [{ sub with inbox := sub.inbox ++ [e] }] := by
      rw [add_log_listeners, hl]
      simp [hsub]
    rw [ih (add_log_to_queue h e) { sub with inbox := sub.inbox ++ [e] }
      hstep hsub]
    simp

/-! ## Claim theorems: broadcast hub -/

/-- C2: for every sequence of publishes into an empty hub, the history
holds exactly the most recent `min N 100` published events in arrival
order — so it never exceeds 100 entries, and past capacity the oldest
entry is the one evicted. -/
theorem hub_history_bounded_recent (es : List LogEvent) :
    (publish_all hub_empty es).log_queue.length = min es.length 100 ∧
    (publish_all hub_empty es).log_queue =
      es.drop (es.length - 100) := by
  have h := publish_all_queue es
  refine ⟨?_, h⟩
  rw [h, List.length_drop]
  omega

/-- C9: `add_log_to_queue` is a total function of the hub state; in one
publish it delivers the event to exactly the listeners whose delivery
succeeds and removes every listener whose delivery fails — and a listener
whose delivery fails is never a member of the listener set after any
number of further publishes, so no later event is delivered to it. -/
theorem publish_isolates_dead_subscriber (h : Hub) (e : LogEvent)
    (es : List LogEvent) (l : Listener) (hdead : l.alive = false) :
    (add_log_to_queue h e).log_listeners =
      (h.log_listeners.filter (fun x => x.alive)).map
        (fun x => { x with inbox := x.inbox ++ [e] }) ∧
    l ∉ (publish_all (add_log_to_queue h e) es).log_listeners := by
  refine ⟨add_log_listeners h e, fun hmem => ?_⟩
  have := publish_add_alive h e es l hmem
  rw [hdead] at this
  exact Bool.false_ne_true this

/-- A hub holding one dead and one alive listener, for the C9 witness. -/
def hubW : Hub :=
  { log_queue := [],
    log_listeners := [⟨0, false, []⟩, ⟨1, true, []⟩] }

/-- Witness for C9 at a concrete hub: the dead listener is dropped by the
publish and absent after a further publish. -/
theorem publish_isolates_dead_subscriber_witness :
    (add_log_to_queue hubW ⟨"info", "a", "t1"⟩).log_listeners =
      (hubW.log_listeners.filter (fun x => x.alive)).map
        (fun x => { x with inbox := x.inbox ++ [⟨"info", "a", "t1"⟩] }) ∧
    (⟨0, false, []⟩ : Listener) ∉
      (publish_all (add_log_to_queue hubW ⟨"info", "a", "t1"⟩)
        [⟨"info", "b", "t2"⟩]).log_listeners :=
  publish_isolates_dead_subscriber hubW ⟨"info", "a", "t1"⟩
    [⟨"info", "b", "t2"⟩] ⟨0, false, []⟩ rfl

/-- C6: a subscriber that registers after `before` has been published and
before the next event receives as replay exactly the most recent
`min N 20` buffered events in order, and thereafter every event of
`after` published while it stays registered, in order, with no duplicates
and no gaps. -/
theorem subscriber_replay_then_live (before after : List LogEvent) :
    stream_logs_session before after =
      (before.drop (before.length - 20), after) ∧
    (stream_logs_session before after).1.length = min before.length 20 := by
  have hnil : (session_hub1 before).log_listeners = [] :=
    publish_all_no_listeners hub_empty before rfl
  have hlis : (session_hub2 before).log_listeners = [session_sub] := by
    show (session_hub1 before).log_listeners ++ [session_sub] = [session_sub]
    rw [hnil]
    rfl
  have hreplay : recent_logs (session_hub1 before).log_queue =
      before.drop (before.length - 20) := by
    show recent_logs (publish_all hub_empty before).log_queue =
      before.drop (before.length - 20)
    rw [publish_all_queue]
    unfold recent_logs
    by_cases hl : 20 < (before.drop (before.length - 100)).length
    · rw [if_pos hl, List.drop_drop]
      rw [List.length_drop] at hl
      rw [List.length_drop]
      congr 1
      omega
    · rw [if_neg hl]
      rw [List.length_drop] at hl
      have : before.length - 100 = before.length - 20 := by omega
      rw [this]
  have hlive : (((publish_all (session_hub2 before) after).log_listeners.find?
      (fun l => l.lid == session_sub.lid)).map Listener.inbox).getD [] =
      after := by
    rw [publish_all_single_listener (session_hub2 before) session_sub hlis
      rfl after]
    rfl
  have hsession : stream_logs_session before after =
      (before.drop (before.length - 20), after) := by
    unfold stream_logs_session
    rw [hreplay, hlive]
  refine ⟨hsession, ?_⟩
  rw [hsession]
  show (before.drop (before.length - 20)).length = min before.length 20
  rw [List.length_drop]
  omega

/-! ## Claim theorems: action dispatcher -/

/-- C3: in a sync-stream dispatch where the device resolves, the action id
is present in the device's action list, and the process is spawned (the
API key is configured), the yielded event sequence is exactly one `start`
first, then one `output` per line of the child's combined output stream in
the child's order, then exactly one terminal `end` frame — which reports
success precisely when the exit code is 0 and otherwise carries the
non-zero exit code. -/
theorem sync_stream_event_sequence (devices : List Device) (env : Env)
    (did aid : String) (device : Device) (lines : List String) (rc : Int)
    (hdev : get_device_by_id devices did = some device)
    (haid : aid ≠ "")
    (hact : (device.actions.find? (fun a => a.id == aid)).isSome = true)
    (hkey : env.api_key ≠ "") :
    execute_device_stream devices env did (some aid) (lines, rc) =
      SSEEvent.start
          ("开始执行: " ++ device.name ++ " - " ++ (resolve_action device aid).2)
          (String.intercalate " " (build_cmd env (resolve_action device aid).1))
          (resolve_action device aid).1
        :: (lines.map SSEEvent.output
          ++ [if rc == 0 then SSEEvent.endEv true "命令执行完成" rc
              else SSEEvent.endEv false "命令执行失败" rc]) := by
  have hne : device.actions.isEmpty = false := by
    cases hacts : device.actions with
    | nil => rw [hacts] at hact; simp [List.find?] at hact
    | cons a as => rfl
  unfold execute_device_stream
  rw [hdev]
  have haid' : (aid == "") = false := by
    cases h : aid == "" with
    | true => exact absurd (eq_of_beq h) haid
    | false => rfl
  have hkey' : (env.api_key == "") = false := by
    cases h : env.api_key == "" with
    | true => exact absurd (eq_of_beq h) hkey
    | false => rfl
  simp only [haid', hne, Bool.or_self, if_false, hkey', Bool.false_eq_true]

/-- A concrete device for the dispatcher witnesses. -/
def deviceW : Device :=
  { id := "d1", name := "客厅灯", app := "com.light",
    actions := [{ id := "a1", name := "开灯", command := "打开\x7bapp\x7d" }] }

/-- A concrete configuration for the dispatcher witnesses. -/
def envW : Env :=
  { python := "python3", base_url := "https://open.bigmodel.cn/api/paas/v4",
    model := "autoglm-phone", api_key := "k" }

/-- Witness for C3 at a concrete dispatch: a resolvable device and action,
a child printing two lines and exiting 0. -/
theorem sync_stream_event_sequence_witness :
    execute_device_stream [deviceW] envW "d1" (some "a1") (["l1", "l2"], 0) =
      SSEEvent.start
          ("开始执行: " ++ deviceW.name ++ " - " ++ (resolve_action deviceW "a1").2)
          (String.intercalate " " (build_cmd envW (resolve_action deviceW "a1").1))
          (resolve_action deviceW "a1").1
        :: ((["l1", "l2"].map SSEEvent.output)
          ++ [if (0 : Int) == 0 then SSEEvent.endEv true "命令执行完成" 0
              else SSEEvent.endEv false "命令执行失败" 0]) :=
  sync_stream_event_sequence [deviceW] envW "d1" "a1" deviceW ["l1", "l2"] 0
    (by decide) (by decide) (by decide) (by decide)

/-- C7: the failing input.  For an unknown device id the sync-stream
dispatch does yield a single not-found error and nothing else; but for a
known device and an action id absent from its action list, the sync-stream
generator yields a `start` frame and spawns the process with an empty
command text instead of failing — while the async dispatcher
`execute_device_action_internal` rejects the very same input with
`未找到对应的操作` before spawning anything. -/
theorem sync_stream_missing_action_still_spawns :
    execute_device_stream [] envW "missing-device" (some "x") ([], 0) =
      [SSEEvent.error "设备 ID missing-device 不存在"] ∧
    execute_device_stream [deviceW] envW "d1" (some "missing")
        (["out"], 0) =
      [SSEEvent.start "开始执行: 客厅灯 - 默认操作"
          (String.intercalate " " (build_cmd envW "")) "",
       SSEEvent.output "out",
       SSEEvent.endEv true "命令执行完成" 0] ∧
    execute_device_action_internal [deviceW] envW "d1" (some "missing") =
      InternalResult.error "未找到对应的操作" := by
  refine ⟨rfl, ?_, rfl⟩
  rfl

/-! ## Claim theorems: schedule module -/

/-- C10: a schedule rule with repeat kind `weekly` and an empty weekday
set is accepted and stored by both the create and the update operation
without any validation error, yet the schedule setup registers no job for
it, so it never fires on any tick. -/
theorem weekly_empty_weekdays_rule_inert (schedules : List ScheduleRule)
    (r0 : ScheduleRule) (tl : List ScheduleRule)
    (rid nm did aid t : String) :
    (create_schedule schedules rid ⟨nm, did, aid, t, some "weekly",
        some [], some true⟩).2 = true ∧
    (create_schedule schedules rid ⟨nm, did, aid, t, some "weekly",
        some [], some true⟩).1 =
      schedules ++ [new_rule_of rid ⟨nm, did, aid, t, some "weekly",
        some [], some true⟩] ∧
    update_schedule (r0 :: tl) r0.id ⟨nm, did, aid, t, some "weekly",
        some [], some true⟩ =
      (new_rule_of r0.id ⟨nm, did, aid, t, some "weekly",
        some [], some true⟩ :: tl, true) ∧
    setup_schedule_job (new_rule_of rid ⟨nm, did, aid, t, some "weekly",
        some [], some true⟩) = [] ∧
    (∀ day time, rule_fires (new_rule_of rid ⟨nm, did, aid, t,
        some "weekly", some [], some true⟩) day time = false) := by
  refine ⟨rfl, rfl, ?_, rfl, fun day time => rfl⟩
  simp [update_schedule, update_first]

end IoT
